import Mathlib

/-!
Verification of the RobotMaintanance dashboard core against its specification.

This file gives a shallow embedding of the fleet-orchestration runtime:

* the status/text normalizers (`normalizeStatus`, `normalizeText`, ... from
  `assets/js/lib/normalize.js` and `modules/dashboard/index.js`),
* the test-result reconciler (`updateRobotTestState` with its reachability
  inference),
* the runtime snapshot merge (`normalizeRuntimeTestUpdate`,
  `mergeRuntimeRobotsIntoState`, `refreshRuntimeStateFromBackend`),
* the bounded-parallelism manual test scheduler (`runManualTests`), modelled as
  a small-step transition system over the cooperative (single-threaded,
  interleaved-at-await-points) JavaScript execution model, and
* the per-robot remote session manager (`RobotTerminalComponent`).

JavaScript runtime values that flow through the normalizers are modelled by
the inductive type `JsVal` (strings, finite numbers, NaN, booleans, null,
undefined).  Numbers are modelled as integers: every numeric value the
embedded code paths compare or store is an epoch timestamp or a counter, and
none of the verified properties depends on fractional values.  JavaScript
objects whose keys are dynamic (the per-robot `tests` maps) are modelled as
association lists in insertion order, with `objGet` / `objSet` / `spreadMerge`
mirroring property access, assignment, and object spread.
-/

/-- A JavaScript runtime value, restricted to the shapes the embedded code
paths can observe: strings, finite numbers (as integers), NaN, booleans,
null and undefined.  An absent object property reads as `vundefined`. -/
inductive JsVal where
  | vstr (s : String)
  | vnum (n : Int)
  | vnan
  | vbool (b : Bool)
  | vnull
  | vundefined
deriving DecidableEq, Repr

/-- JavaScript `String(value)` coercion for the values in `JsVal`. -/
def jsToString : JsVal → String
  | .vstr s => s
  | .vnum n => toString n
  | .vnan => "NaN"
  | .vbool true => "true"
  | .vbool false => "false"
  | .vnull => "null"
  | .vundefined => "undefined"

/-- JavaScript `Number(value)` coercion, returning `none` where the result is
not a finite number (so `none` plays the role of NaN for `Number.isFinite`).
String parsing handles the integer forms that occur in the embedded code. -/
def jsToNumber : JsVal → Option Int
  | .vstr s => if s.trim = "" then some 0 else s.trim.toInt?
  | .vnum n => some n
  | .vnan => none
  | .vbool true => some 1
  | .vbool false => some 0
  | .vnull => some 0
  | .vundefined => none

/-- JavaScript truthiness of a `JsVal`. -/
def jsTruthy : JsVal → Bool
  | .vstr s => s ≠ ""
  | .vnum n => n ≠ 0
  | .vnan => false
  | .vbool b => b
  | .vnull => false
  | .vundefined => false

/-- JavaScript `s.trim()`, written over the character list so that the kernel
can evaluate it on concrete inputs (core `String.trim` works on byte
positions and does not reduce). -/
def jsTrim (s : String) : String :=
  ⟨((s.data.dropWhile Char.isWhitespace).reverse.dropWhile Char.isWhitespace).reverse⟩

/-- JavaScript `s.toLowerCase()` over the character list. -/
def jsToLower (s : String) : String :=
  ⟨s.data.map Char.toLower⟩

/-- Character-list prefix test (kernel-reducible). -/
def charsPre : List Char → List Char → Bool
  | [], _ => true
  | _ :: _, [] => false
  | a :: as, b :: bs => a = b && charsPre as bs

/-- JavaScript `haystack.includes(needle)` on strings. -/
def jsIncludes (haystack needle : String) : Bool :=
  haystack.data.tails.any (fun t => charsPre needle.data t)

/-- Source `normalizeStatus` (assets/js/lib/normalize.js): values strictly
equal to "ok", "warning" or "error" pass through, everything else becomes
"warning". -/
def normalizeStatus (value : JsVal) : String :=
  if value = .vstr "ok" ∨ value = .vstr "warning" ∨ value = .vstr "error" then
    jsToString value
  else "warning"

/-- Source `normalizeText` (assets/js/lib/normalize.js): null/undefined become
the empty string, other values are stringified and trimmed, and an empty
candidate falls back to `fallback`. -/
def normalizeText (value : JsVal) (fallback : String) : String :=
  let candidate := match value with
    | .vnull => ""
    | .vundefined => ""
    | v => jsTrim (jsToString v)
  if candidate = "" then fallback else candidate

/-- C9: normalizeStatus maps every value into the closed set
\x7bok, warning, error\x7d, any value outside that set (any casing or shape)
normalizes to "warning", and values already in the set are unchanged. -/
theorem C9_normalizeStatus_closed_set (v : JsVal) :
    (normalizeStatus v = "ok" ∨ normalizeStatus v = "warning" ∨
      normalizeStatus v = "error") ∧
    (v ≠ .vstr "ok" → v ≠ .vstr "warning" → v ≠ .vstr "error" →
      normalizeStatus v = "warning") ∧
    (∀ s : String, (s = "ok" ∨ s = "warning" ∨ s = "error") →
      normalizeStatus (.vstr s) = s) := by
  refine ⟨?_, ?_, ?_⟩
  · unfold normalizeStatus
    rcases v with s | n | _ | b | _ | _ <;> simp [jsToString]
    split <;> simp_all [jsToString]
  · intro h1 h2 h3
    unfold normalizeStatus
    simp [h1, h2, h3]
  · intro s hs
    unfold normalizeStatus
    rcases hs with h | h | h <;> simp [h, jsToString]

/-- Witness for C9 at concrete inputs: "OK" (wrong casing), null, a number,
and the three canonical values. -/
theorem C9_normalizeStatus_closed_set_witness :
    normalizeStatus (.vstr "OK") = "warning" ∧
    normalizeStatus .vnull = "warning" ∧
    normalizeStatus (.vnum 3) = "warning" ∧
    normalizeStatus (.vstr "error") = "error" := by
  refine ⟨?_, ?_, ?_, ?_⟩
  · exact (C9_normalizeStatus_closed_set (.vstr "OK")).2.1
      (by decide) (by decide) (by decide)
  · exact (C9_normalizeStatus_closed_set .vnull).2.1
      (by decide) (by decide) (by decide)
  · exact (C9_normalizeStatus_closed_set (.vnum 3)).2.1
      (by decide) (by decide) (by decide)
  · exact (C9_normalizeStatus_closed_set (.vstr "error")).2.2 "error" (Or.inr (Or.inr rfl))

/-! ## JavaScript object maps

The per-robot `tests` map is a plain JS object keyed by check id.  We model
such objects as association lists in property insertion order.  `objGet` is
property access, `objSet` is property assignment (replace in place, else
append), `spreadMerge` is the object spread `\x7b ...base, ...upd \x7d`. -/

/-- Property access `m[k]` on a JS object modelled as an association list. -/
def objGet {α : Type} : List (String × α) → String → Option α
  | [], _ => none
  | p :: rest, k => if p.1 = k then some p.2 else objGet rest k

/-- Property assignment `m[k] = v`: replaces the value in place if the key
exists (keeping key order), otherwise appends the new key. -/
def objSet {α : Type} : List (String × α) → String → α → List (String × α)
  | [], k, v => [(k, v)]
  | p :: rest, k, v => if p.1 = k then (k, v) :: rest else p :: objSet rest k v

/-- Object spread `\x7b ...base, ...upd \x7d`: keys of `base` keep their order
(values overridden by `upd` where present), new keys of `upd` follow. -/
def spreadMerge {α : Type} (base upd : List (String × α)) : List (String × α) :=
  base.map (fun p => match objGet upd p.1 with | some v => (p.1, v) | none => p) ++
    upd.filter (fun p => (objGet base p.1).isNone)

theorem objGet_objSet_self {α : Type} (m : List (String × α)) (k : String) (v : α) :
    objGet (objSet m k v) k = some v := by
  induction m with
  | nil => simp [objGet, objSet]
  | cons p rest ih =>
    by_cases h : p.1 = k
    · simp [objSet, objGet, h]
    · simp [objSet, objGet, h, ih]

theorem objGet_objSet_ne {α : Type} (m : List (String × α)) (k k' : String) (v : α)
    (h : k' ≠ k) : objGet (objSet m k v) k' = objGet m k' := by
  have h' : ¬ k = k' := fun hh => h hh.symm
  induction m with
  | nil => simp [objGet, objSet, h']
  | cons p rest ih =>
    by_cases hp : p.1 = k
    · simp [objSet, objGet, hp, h']
    · by_cases hp' : p.1 = k'
      · simp [objSet, objGet, hp, hp', h]
      · simp [objSet, objGet, hp, hp', ih]

theorem spreadMerge_nil {α : Type} (base : List (String × α)) :
    spreadMerge base [] = base := by
  simp [spreadMerge, objGet]

theorem objGet_append {α : Type} (a b : List (String × α)) (k : String) :
    objGet (a ++ b) k = ((objGet a k).rec (objGet b k) (fun v => some v) : Option α) := by
  induction a with
  | nil => simp [objGet]
  | cons p rest ih =>
    by_cases h : p.1 = k
    · simp [objGet, h]
    · simp [objGet, h, ih]

theorem objGet_map_override {α : Type} (base upd : List (String × α)) (k : String) :
    objGet (base.map (fun p =>
      match objGet upd p.1 with | some v => (p.1, v) | none => p)) k =
      match objGet base k with
      | some v => some ((objGet upd k).getD v)
      | none => none := by
  induction base with
  | nil => simp [objGet]
  | cons p rest ih =>
    by_cases h : p.1 = k
    · subst h
      cases hupd : objGet upd p.1 <;> simp [objGet, hupd]
    · cases hupd : objGet upd p.1 <;> simp [objGet, hupd, h, ih]

theorem objGet_filter_notin {α : Type} (base upd : List (String × α)) (k : String) :
    objGet (upd.filter (fun p => (objGet base p.1).isNone)) k =
      match objGet base k with
      | some _ => none
      | none => objGet upd k := by
  induction upd with
  | nil => cases objGet base k <;> simp [objGet]
  | cons q rest ih =>
    by_cases hq : q.1 = k
    · subst hq
      cases hb : objGet base q.1 <;> simp [objGet, hb, List.filter_cons, ih]
    · cases hb : objGet base k <;>
        cases hb' : objGet base q.1 <;>
          simp [objGet, hb, hb', hq, List.filter_cons, ih]

theorem objGet_spreadMerge {α : Type} (base upd : List (String × α)) (k : String) :
    objGet (spreadMerge base upd) k =
      match objGet base k with
      | some v => some ((objGet upd k).getD v)
      | none => objGet upd k := by
  unfold spreadMerge
  rw [objGet_append, objGet_map_override, objGet_filter_notin]
  cases objGet base k <;> cases objGet upd k <;> simp

/-! ## Robot test state (modules/dashboard/index.js, updateRobotTestState)

A stored per-check result object.  Absent properties are `vundefined`; backend-
normalized entries store plain strings (`vstr`).  `testDebug` entries are
omitted from the model: the spec classifies them as inspection-only, never
consulted for control flow. -/

/-- One entry of a robot `tests` map: \x7bstatus, value, details, source,
checkedAt\x7d, each possibly absent. -/
structure TestCheck where
  status : JsVal
  value : JsVal
  details : JsVal
  source : JsVal
  checkedAt : JsVal
deriving DecidableEq, Repr

/-- The map from check id to stored result on a robot record. -/
abbrev TestsMap := List (String × TestCheck)

/-- One element of the `results` array of a test-run response:
\x7bid, status, value, details\x7d (the fields `updateRobotTestState` reads). -/
structure TestResultObj where
  id : JsVal
  status : JsVal
  value : JsVal
  details : JsVal
deriving DecidableEq, Repr

/-- Optional-chained `result?.id` where a non-object entry reads as
undefined. -/
def resIdOf : Option TestResultObj → JsVal
  | some r => r.id
  | none => .vundefined

/-- Optional-chained `result?.status`. -/
def resStatusOf : Option TestResultObj → JsVal
  | some r => r.status
  | none => .vundefined

/-- Optional-chained `result?.value`. -/
def resValueOf : Option TestResultObj → JsVal
  | some r => r.value
  | none => .vundefined

/-- Optional-chained `result?.details`. -/
def resDetailsOf : Option TestResultObj → JsVal
  | some r => r.details
  | none => .vundefined

/-- Optional-chained field access on a possibly missing `tests` entry. -/
def checkFieldOf (o : Option TestCheck) (f : TestCheck → JsVal) : JsVal :=
  match o with
  | some c => f c
  | none => .vundefined

/-- The normalized entry `updateRobotTestState` writes for one result:
`\x7bstatus: normalizeStatus(...), value: normalizeText(..., 'n/a'),
details: normalizeText(..., 'No detail available')\x7d`. -/
def mkResultCheck (res : TestResultObj) : TestCheck :=
  { status := .vstr (normalizeStatus res.status)
    value := .vstr (normalizeText res.value "n/a")
    details := .vstr (normalizeText res.details "No detail available")
    source := .vundefined
    checkedAt := .vundefined }

/-- One iteration of the `results.forEach` loop of `updateRobotTestState`
(lines 2683-2701): a result that is an object with a non-empty normalized id
writes one normalized entry into the accumulating updates. -/
def applyOneResult (acc : TestsMap) (r : Option TestResultObj) : TestsMap :=
  match r with
  | none => acc
  | some res =>
    let resultId := normalizeText res.id ""
    if resultId = "" then acc
    else objSet acc resultId (mkResultCheck res)

/-- The whole `results.forEach` loop, starting from a copy of the robot
tests. -/
def applyResultUpdates (tests : TestsMap) (results : List (Option TestResultObj)) :
    TestsMap :=
  results.foldl applyOneResult tests

/-- Source line 2703: `results.some(r => normalizeText(r?.id, '') === 'online')`. -/
def hasExplicitOnlineResult (results : List (Option TestResultObj)) : Bool :=
  results.any (fun r => normalizeText (resIdOf r) "" = "online")

/-- Source lines 2706-2718: whether the robot already has a recent explicit
reachability result.  A placeholder entry (warning / empty-or-unknown value /
empty-or-not-checked-yet details) does not count; an existing non-placeholder
entry counts as recent when its `checkedAt` is non-finite, non-positive, or at
most 15 seconds old.  `now` is the integer value of `Date.now() / 1000`. -/
def hasRecentExplicitOnline (tests : TestsMap) (now : Int) : Bool :=
  let existingOnline := objGet tests "online"
  let existingOnlineStatus := normalizeStatus (checkFieldOf existingOnline TestCheck.status)
  let existingOnlineValue := jsToLower (normalizeText (checkFieldOf existingOnline TestCheck.value) "")
  let existingOnlineDetails := jsToLower (normalizeText (checkFieldOf existingOnline TestCheck.details) "")
  let existingOnlineCheckedAt := jsToNumber (checkFieldOf existingOnline TestCheck.checkedAt)
  let isPlaceholderOnline :=
    existingOnlineStatus == "warning" &&
    (existingOnlineValue == "" || existingOnlineValue == "unknown") &&
    (existingOnlineDetails == "" || existingOnlineDetails == "not checked yet")
  existingOnline.isSome && !isPlaceholderOnline &&
    (match existingOnlineCheckedAt with
     | none => true
     | some cAt => cAt ≤ 0 || now - cAt ≤ 15)

/-- Source lines 2720-2722: the results whose normalized id is not "online"
(non-object entries pass this filter, as in the source). -/
def nonOnlineResults (results : List (Option TestResultObj)) :
    List (Option TestResultObj) :=
  results.filter (fun r => ¬ normalizeText (resIdOf r) "" = "online")

/-- Source lines 2723-2725: some non-online result has a non-error status. -/
def anyNonError (results : List (Option TestResultObj)) : Bool :=
  (nonOnlineResults results).any (fun r => ¬ normalizeStatus (resStatusOf r) = "error")

/-- Source lines 2726-2739: the non-online results are non-empty and every
one is an error whose details mention ssh/connect/auth or whose value is
execution_error / command_error. -/
def allSshFailures (results : List (Option TestResultObj)) : Bool :=
  !(nonOnlineResults results).isEmpty &&
    (nonOnlineResults results).all (fun r =>
      if !(normalizeStatus (resStatusOf r) == "error") then false
      else
        let details := jsToLower (normalizeText (resDetailsOf r) "")
        let value := jsToLower (normalizeText (resValueOf r) "")
        jsIncludes details "ssh" || jsIncludes details "connect" ||
          jsIncludes details "auth" || value == "execution_error" ||
          value == "command_error")

/-- The `updates.online` entry written when reachability is inferred ok
(source lines 2741-2746). -/
def inferredOnlineOk : TestCheck :=
  { status := .vstr "ok"
    value := .vstr "reachable"
    details := .vstr "Inferred online: at least one test command executed."
    source := .vundefined
    checkedAt := .vundefined }

/-- The `updates.online` entry written when reachability is inferred offline
(source lines 2747-2753). -/
def inferredOnlineUnreachable : TestCheck :=
  { status := .vstr "error"
    value := .vstr "unreachable"
    details := .vstr "Inferred offline: test execution failed for SSH/connectivity reasons."
    source := .vundefined
    checkedAt := .vundefined }

/-- The full `updates` map computed by `updateRobotTestState` for one robot
(source lines 2681-2754): the per-result writes followed by the reachability
inference. -/
def applyTestResults (tests : TestsMap) (results : List (Option TestResultObj))
    (now : Int) : TestsMap :=
  let updates := applyResultUpdates tests results
  if !hasExplicitOnlineResult results && !hasRecentExplicitOnline tests now then
    if anyNonError results then objSet updates "online" inferredOnlineOk
    else if allSshFailures results then objSet updates "online" inferredOnlineUnreachable
    else updates
  else updates

theorem objGet_applyOneResult_notOnline (acc : TestsMap) (r : Option TestResultObj)
    (h : ¬ normalizeText (resIdOf r) "" = "online") :
    objGet (applyOneResult acc r) "online" = objGet acc "online" := by
  cases r with
  | none => rfl
  | some res =>
    by_cases hid : normalizeText res.id "" = ""
    · simp [applyOneResult, hid]
    · simp only [applyOneResult, if_neg hid]
      exact objGet_objSet_ne acc _ _ _ (fun hh => h (by simpa [resIdOf] using hh.symm))

theorem objGet_applyResultUpdates_notOnline (tests : TestsMap)
    (results : List (Option TestResultObj))
    (h : ∀ r ∈ results, ¬ normalizeText (resIdOf r) "" = "online") :
    objGet (applyResultUpdates tests results) "online" = objGet tests "online" := by
  induction results generalizing tests with
  | nil => simp [applyResultUpdates]
  | cons r rs ih =>
    have hr := h r (List.mem_cons_self r rs)
    have htail : ∀ x ∈ rs, ¬ normalizeText (resIdOf x) "" = "online" :=
      fun x hx => h x (List.mem_cons_of_mem r hx)
    unfold applyResultUpdates
    rw [List.foldl_cons]
    rw [show List.foldl applyOneResult (applyOneResult tests r) rs =
      applyResultUpdates (applyOneResult tests r) rs from rfl]
    rw [ih _ htail]
    exact objGet_applyOneResult_notOnline tests r hr

/-- C3: with no explicit "online" result in the batch and no recent explicit
reachability result, `updateRobotTestState` infers reachability: some
non-online result with non-error status yields an ok/reachable online entry;
all non-online results failing with a connectivity/authentication signature
yields an error/unreachable online entry; otherwise the online entry is left
untouched. -/
theorem C3_reachability_inference (tests : TestsMap)
    (results : List (Option TestResultObj)) (now : Int)
    (hno : hasExplicitOnlineResult results = false)
    (hrec : hasRecentExplicitOnline tests now = false) :
    (anyNonError results = true →
      objGet (applyTestResults tests results now) "online" = some inferredOnlineOk) ∧
    (anyNonError results = false → allSshFailures results = true →
      objGet (applyTestResults tests results now) "online" =
        some inferredOnlineUnreachable) ∧
    (anyNonError results = false → allSshFailures results = false →
      objGet (applyTestResults tests results now) "online" = objGet tests "online") := by
  have hids : ∀ r ∈ results, ¬ normalizeText (resIdOf r) "" = "online" := by
    intro r hr hcontra
    have : hasExplicitOnlineResult results = true := by
      unfold hasExplicitOnlineResult
      rw [List.any_eq_true]
      exact ⟨r, hr, by simp [hcontra]⟩
    simp [this] at hno
  refine ⟨?_, ?_, ?_⟩
  · intro hany
    simp [applyTestResults, hno, hrec, hany, objGet_objSet_self]
  · intro hany hssh
    simp [applyTestResults, hno, hrec, hany, hssh, objGet_objSet_self]
  · intro hany hssh
    simp [applyTestResults, hno, hrec, hany, hssh]
    exact objGet_applyResultUpdates_notOnline tests results hids

/-- Witness for C3 covering the two concrete examples from the claim: a batch
`[\x7bid: "disk", status: "error", value: "execution_error"\x7d]` infers
error/unreachable, and `[\x7bid: "disk", status: "ok"\x7d]` infers
ok/reachable (robot with no stored online entry, so no recent result). -/
theorem C3_reachability_inference_witness :
    objGet (applyTestResults []
      [some ⟨.vstr "disk", .vstr "error", .vstr "execution_error", .vundefined⟩] 1000)
      "online" = some inferredOnlineUnreachable ∧
    objGet (applyTestResults []
      [some ⟨.vstr "disk", .vstr "ok", .vundefined, .vundefined⟩] 1000)
      "online" = some inferredOnlineOk := by
  constructor
  · exact (C3_reachability_inference []
      [some ⟨.vstr "disk", .vstr "error", .vstr "execution_error", .vundefined⟩] 1000
      (by decide) (by decide)).2.1 (by decide) (by decide)
  · exact (C3_reachability_inference []
      [some ⟨.vstr "disk", .vstr "ok", .vundefined, .vundefined⟩] 1000
      (by decide) (by decide)).1 (by decide)

/-! ## Runtime snapshot merge (modules/dashboard/index.js, lines 3822-3927)

`mergeRuntimeRobotsIntoState` reconciles the backend-polled robot list into
local state.  The model covers the `state.robots.forEach` body (lines
3847-3914): per existing local robot, the polled tests are filtered through
`normalizeRuntimeTestUpdate` and merged unless the robot has local priority
activity, and the polled activity (normalized by `normalizeRobotData` and
again by the merge) replaces the local activity under the same condition.
The trailing loop that appends polled robots absent from local state (lines
3916-3921) is not modelled: every verified claim quantifies over robots
present in local state.  Robot records carry the three fields the claims
read (id, tests, activity); the remaining display fields the spread copies
from the live robot are irrelevant to the claims. -/

/-- A robot `activity` object; fields are raw JS values so that
`normalizeRobotActivity` can be applied to its own output, as the merge
does. -/
structure ActivityObj where
  searching : JsVal
  testing : JsVal
  phase : JsVal
  lastFullTestAt : JsVal
  lastFullTestSource : JsVal
  updatedAt : JsVal
deriving DecidableEq, Repr

/-- Source `normalizeRobotActivity` (lines 429-452): non-objects yield the
default idle activity; otherwise booleans are coerced, phase and
lastFullTestSource become trimmed strings or null, and the two timestamps
become positive finite numbers or 0. -/
def normalizeRobotActivity : Option ActivityObj → ActivityObj
  | none =>
    { searching := .vbool false
      testing := .vbool false
      phase := .vnull
      lastFullTestAt := .vnum 0
      lastFullTestSource := .vnull
      updatedAt := .vnum 0 }
  | some a =>
    let phase := normalizeText a.phase ""
    let updatedAt := jsToNumber a.updatedAt
    let lastFullTestAt := jsToNumber a.lastFullTestAt
    let lastFullTestSource := normalizeText a.lastFullTestSource ""
    { searching := .vbool (jsTruthy a.searching)
      testing := .vbool (jsTruthy a.testing)
      phase := if phase = "" then .vnull else .vstr phase
      lastFullTestAt :=
        match lastFullTestAt with
        | some n => if 0 < n then .vnum n else .vnum 0
        | none => .vnum 0
      lastFullTestSource :=
        if lastFullTestSource = "" then .vnull else .vstr lastFullTestSource
      updatedAt :=
        match updatedAt with
        | some n => if 0 < n then .vnum n else .vnum 0
        | none => .vnum 0 }

/-- A local robot record, restricted to the fields the verified claims read:
normalized id, the `tests` map, and the `activity` object (possibly absent). -/
structure RobotRec where
  id : String
  tests : TestsMap
  activity : Option ActivityObj
deriving DecidableEq, Repr

/-- One robot of the raw backend-polled list `/api/robots`: a raw id value,
a raw `tests` object whose entries may be non-objects, and a raw activity. -/
structure RawRuntimeRobot where
  id : JsVal
  tests : List (String × Option TestCheck)
  activity : Option ActivityObj
deriving DecidableEq, Repr

/-- Source `robotId` applied to a raw robot: `normalizeText(robot?.id, '')`. -/
def robotIdOfRaw (r : RawRuntimeRobot) : String :=
  normalizeText r.id ""

/-- Source constant `RUNTIME_ALLOWED_SOURCES` (line 45). -/
def RUNTIME_ALLOWED_SOURCES : List String :=
  ["manual", "live", "auto-monitor", "auto-monitor-topics"]

/-- Source `normalizeRuntimeTestUpdate` (lines 3822-3836): a polled check
result is kept only when it is an object whose normalized `source` is in
`RUNTIME_ALLOWED_SOURCES`; kept entries are normalized field by field. -/
def normalizeRuntimeTestUpdate (_testId : String) (raw : Option TestCheck) :
    Option TestCheck :=
  match raw with
  | none => none
  | some c =>
    let source := normalizeText c.source ""
    if ¬ RUNTIME_ALLOWED_SOURCES.contains source then none
    else
      some
        { status := .vstr (normalizeStatus c.status)
          value := .vstr (normalizeText c.value "n/a")
          details := .vstr (normalizeText c.details "No detail available")
          source := .vstr source
          checkedAt :=
            match jsToNumber c.checkedAt with
            | some n => .vnum n
            | none => .vnum 0 }

/-- One iteration of the `runtimeUpdates` accumulation (lines 3864-3868):
a polled entry is written only when `normalizeRuntimeTestUpdate` keeps it. -/
def applyOneRuntimeUpdate (acc : TestsMap) (p : String × Option TestCheck) :
    TestsMap :=
  match normalizeRuntimeTestUpdate p.1 p.2 with
  | none => acc
  | some u => objSet acc p.1 u

/-- The `runtimeUpdates` accumulation of the merge (lines 3862-3869),
one `normalizeRuntimeTestUpdate` per polled entry, dropped when null. -/
def buildRuntimeUpdates (rawTests : List (String × Option TestCheck)) : TestsMap :=
  rawTests.foldl applyOneRuntimeUpdate []

/-- The three locally owned activity id sets (JS `Set`s, membership only). -/
structure ActivitySets where
  testingRobotIds : List String
  searchingRobotIds : List String
  fixingRobotIds : List String
deriving DecidableEq, Repr

/-- Source lines 3856-3859: the robot has local priority activity when its id
is in any of the three local sets. -/
def hasLocalPriorityActivity (sets : ActivitySets) (id : String) : Bool :=
  sets.testingRobotIds.contains id || sets.searchingRobotIds.contains id ||
    sets.fixingRobotIds.contains id

/-- JavaScript strict inequality `Number(a) !== Number(b)` (NaN compares
unequal to everything, including itself). -/
def jsNumNe (a b : JsVal) : Bool :=
  match jsToNumber a, jsToNumber b with
  | some x, some y => decide (¬ x = y)
  | _, _ => true

/-- The body of `state.robots.forEach` in `mergeRuntimeRobotsIntoState`
(lines 3847-3913) for one local robot: returns the merged record and whether
it counts as changed.  `rawLive` is the polled robot with the same normalized
id, if any (the live-list lookup finds the same robot for both the raw map
and the normalized map, since both are keyed by the normalized id and a Map
keeps the last entry per key). -/
def mergeOneRuntimeRobot (sets : ActivitySets) (current : RobotRec)
    (rawLive : Option RawRuntimeRobot) : RobotRec × Bool :=
  match rawLive with
  | none => (current, false)
  | some raw =>
    let hasLocal := hasLocalPriorityActivity sets current.id
    let runtimeUpdates := if hasLocal then [] else buildRuntimeUpdates raw.tests
    let nextTests := spreadMerge current.tests runtimeUpdates
    let runtimeChanged := runtimeUpdates.any (fun p =>
      let prior := objGet current.tests p.1
      decide (¬ JsVal.vstr (normalizeStatus (checkFieldOf prior TestCheck.status)) = p.2.status) ||
      decide (¬ JsVal.vstr (normalizeText (checkFieldOf prior TestCheck.value) "") = p.2.value) ||
      decide (¬ JsVal.vstr (normalizeText (checkFieldOf prior TestCheck.details) "") = p.2.details))
    let previousActivity := normalizeRobotActivity current.activity
    let nextActivity :=
      if hasLocal then previousActivity
      else normalizeRobotActivity (some (normalizeRobotActivity raw.activity))
    let activityChanged :=
      decide (¬ previousActivity.searching = nextActivity.searching) ||
      decide (¬ previousActivity.testing = nextActivity.testing) ||
      decide (¬ normalizeText previousActivity.phase "" = normalizeText nextActivity.phase "") ||
      jsNumNe previousActivity.lastFullTestAt nextActivity.lastFullTestAt ||
      decide (¬ normalizeText previousActivity.lastFullTestSource "" =
        normalizeText nextActivity.lastFullTestSource "") ||
      jsNumNe previousActivity.updatedAt nextActivity.updatedAt
    ({ id := current.id, tests := nextTests, activity := some nextActivity },
      runtimeChanged || activityChanged)

/-- Lookup of the polled robot by normalized id (a JS `Map` built from a list
keeps the last entry per key). -/
def lookupRawById (raws : List RawRuntimeRobot) (id : String) :
    Option RawRuntimeRobot :=
  raws.reverse.find? (fun r => robotIdOfRaw r == id)

/-- Source `mergeRuntimeRobotsIntoState` restricted to the existing local
robots (lines 3838-3914): robots with an empty normalized id are skipped,
each remaining robot is merged with the polled robot of the same id, and the
ids of changed robots are collected in iteration order. -/
def mergeRuntimeRobotsIntoState (sets : ActivitySets) (robots : List RobotRec)
    (raws : List RawRuntimeRobot) : List RobotRec × List String :=
  let pairs := (robots.filter (fun r => ¬ r.id = "")).map
    (fun r => (mergeOneRuntimeRobot sets r (lookupRawById raws r.id), r.id))
  (pairs.map (fun p => p.1.1), (pairs.filter (fun p => p.1.2)).map (fun p => p.2))

theorem objGet_foldlRuntimeUpdates_none (l : List (String × Option TestCheck))
    (acc : TestsMap) (k : String) (hacc : objGet acc k = none)
    (h : ∀ p ∈ l, p.1 = k → normalizeRuntimeTestUpdate p.1 p.2 = none) :
    objGet (l.foldl applyOneRuntimeUpdate acc) k = none := by
  induction l generalizing acc with
  | nil => simpa using hacc
  | cons p rest ih =>
    rw [List.foldl_cons]
    refine ih (applyOneRuntimeUpdate acc p) ?_
      (fun q hq hqk => h q (List.mem_cons_of_mem p hq) hqk)
    unfold applyOneRuntimeUpdate
    cases hn : normalizeRuntimeTestUpdate p.1 p.2 with
    | none => simpa using hacc
    | some u =>
      by_cases hk : p.1 = k
      · exact absurd hn (by simp [h p (List.mem_cons_self p rest) hk])
      · rw [objGet_objSet_ne acc p.1 k u (fun hh => hk hh.symm)]
        exact hacc

theorem objGet_buildRuntimeUpdates_none (rawTests : List (String × Option TestCheck))
    (k : String)
    (h : ∀ p ∈ rawTests, p.1 = k → normalizeRuntimeTestUpdate p.1 p.2 = none) :
    objGet (buildRuntimeUpdates rawTests) k = none :=
  objGet_foldlRuntimeUpdates_none rawTests [] k rfl h

/-- Counterexample input for C2: a robot with no local activity whose polled
battery check carries a source outside `RUNTIME_ALLOWED_SOURCES`. -/
def C2localBattery : TestCheck :=
  { status := .vstr "ok", value := .vstr "100", details := .vstr "fine",
    source := .vundefined, checkedAt := .vundefined }

/-- The polled battery entry of the C2 counterexample (source "backend"). -/
def C2pollBattery : TestCheck :=
  { status := .vstr "error", value := .vstr "low", details := .vstr "disk failing",
    source := .vstr "backend", checkedAt := .vnum 5 }

/-- The already-normalized idle activity object. -/
def idleActivity : ActivityObj := normalizeRobotActivity none

/-- The local robot of the C2 counterexample. -/
def C2localRobot : RobotRec :=
  { id := "r1", tests := [("battery", C2localBattery)], activity := some idleActivity }

/-- The polled robot of the C2 counterexample. -/
def C2rawRobot : RawRuntimeRobot :=
  { id := .vstr "r1", tests := [("battery", some C2pollBattery)], activity := none }

/-- Empty local activity sets. -/
def emptyActivitySets : ActivitySets :=
  { testingRobotIds := [], searchingRobotIds := [], fixingRobotIds := [] }

/-- Counterexample to C2 as stated: robot r1 is in no local ActivitySet, the
backend poll reports battery = error, yet the reconciliation pass leaves the
local battery = ok entry unchanged (the polled entry's source "backend" is
not in `RUNTIME_ALLOWED_SOURCES`), so backend-polled test fields do not fully
replace the corresponding local fields. -/
theorem C2_full_replacement_counterexample :
    hasLocalPriorityActivity emptyActivitySets "r1" = false ∧
    (mergeRuntimeRobotsIntoState emptyActivitySets [C2localRobot] [C2rawRobot]).1 =
      [C2localRobot] ∧
    ¬ normalizeStatus C2pollBattery.status = normalizeStatus C2localBattery.status := by
  decide

/-- C2 as amended: for a robot in any local ActivitySet, the pass leaves its
tests and (already-normalized) activity unchanged and keeps the robot in the
merged state; for a robot in no ActivitySet, the polled activity (normalized)
fully replaces the local activity, and every polled check update accepted by
`normalizeRuntimeTestUpdate` replaces the corresponding local check entry. -/
theorem C2_precedence_rule (sets : ActivitySets) (robots : List RobotRec)
    (raws : List RawRuntimeRobot) (r : RobotRec) (hmem : r ∈ robots)
    (hid : ¬ r.id = "") :
    (hasLocalPriorityActivity sets r.id = true →
      r.activity = some (normalizeRobotActivity r.activity) →
      (mergeOneRuntimeRobot sets r (lookupRawById raws r.id)).1 = r ∧
        r ∈ (mergeRuntimeRobotsIntoState sets robots raws).1) ∧
    (∀ raw : RawRuntimeRobot, hasLocalPriorityActivity sets r.id = false →
      (mergeOneRuntimeRobot sets r (some raw)).1.activity =
          some (normalizeRobotActivity (some (normalizeRobotActivity raw.activity))) ∧
      ∀ k u, objGet (buildRuntimeUpdates raw.tests) k = some u →
        objGet (mergeOneRuntimeRobot sets r (some raw)).1.tests k = some u) := by
  constructor
  · intro hact hnorm
    have hone : (mergeOneRuntimeRobot sets r (lookupRawById raws r.id)).1 = r := by
      cases hl : lookupRawById raws r.id with
      | none => rfl
      | some raw =>
        simp only [mergeOneRuntimeRobot, hact, if_true, spreadMerge_nil]
        rw [← hnorm]
    refine ⟨hone, ?_⟩
    unfold mergeRuntimeRobotsIntoState
    simp only []
    apply List.mem_map.mpr
    refine ⟨(mergeOneRuntimeRobot sets r (lookupRawById raws r.id), r.id),
      List.mem_map.mpr ⟨r, List.mem_filter.mpr ⟨hmem, by simpa using hid⟩, rfl⟩, hone⟩
  · intro raw hact
    have hmerge : (mergeOneRuntimeRobot sets r (some raw)).1 =
        ⟨r.id, spreadMerge r.tests (buildRuntimeUpdates raw.tests),
          some (normalizeRobotActivity (some (normalizeRobotActivity raw.activity)))⟩ := by
      simp only [mergeOneRuntimeRobot, hact]
      simp
    constructor
    · rw [hmerge]
    · intro k u hu
      rw [hmerge]
      show objGet (spreadMerge r.tests (buildRuntimeUpdates raw.tests)) k = some u
      rw [objGet_spreadMerge]
      cases hb : objGet r.tests k <;> simp [hu]

/-- Witness for C2: robot r2 sits in the local testing set with an
already-normalized activity, a poll reports a different (allowed-source)
battery value, and the pass leaves r2 unchanged; for a robot r3 with no local
activity the same polled update replaces the local battery entry. -/
theorem C2_precedence_rule_witness :
    hasLocalPriorityActivity ⟨["r2"], [], []⟩ "r2" = true ∧
    (mergeOneRuntimeRobot ⟨["r2"], [], []⟩
      ⟨"r2", [("battery", C2localBattery)], some idleActivity⟩
      (lookupRawById [⟨.vstr "r2",
        [("battery", some { C2pollBattery with source := .vstr "manual" })], none⟩] "r2")).1 =
      ⟨"r2", [("battery", C2localBattery)], some idleActivity⟩ ∧
    ⟨"r2", [("battery", C2localBattery)], some idleActivity⟩ ∈
      (mergeRuntimeRobotsIntoState ⟨["r2"], [], []⟩
        [⟨"r2", [("battery", C2localBattery)], some idleActivity⟩]
        [⟨.vstr "r2",
          [("battery", some { C2pollBattery with source := .vstr "manual" })], none⟩]).1 ∧
    objGet (mergeOneRuntimeRobot emptyActivitySets
      ⟨"r3", [("battery", C2localBattery)], some idleActivity⟩
      (some ⟨.vstr "r3",
        [("battery", some { C2pollBattery with source := .vstr "manual" })], none⟩)).1.tests
      "battery" =
      some { status := .vstr "error", value := .vstr "low",
             details := .vstr "disk failing", source := .vstr "manual",
             checkedAt := .vnum 5 } := by
  have h1 := (C2_precedence_rule ⟨["r2"], [], []⟩
    [⟨"r2", [("battery", C2localBattery)], some idleActivity⟩]
    [⟨.vstr "r2",
      [("battery", some { C2pollBattery with source := .vstr "manual" })], none⟩]
    ⟨"r2", [("battery", C2localBattery)], some idleActivity⟩
    (List.mem_singleton.mpr rfl) (by decide)).1 (by decide) (by decide)
  have h2 := ((C2_precedence_rule emptyActivitySets
    [⟨"r3", [("battery", C2localBattery)], some idleActivity⟩]
    [⟨.vstr "r3",
      [("battery", some { C2pollBattery with source := .vstr "manual" })], none⟩]
    ⟨"r3", [("battery", C2localBattery)], some idleActivity⟩
    (List.mem_singleton.mpr rfl) (by decide)).2
    ⟨.vstr "r3",
      [("battery", some { C2pollBattery with source := .vstr "manual" })], none⟩
    (by decide)).2 "battery"
    { status := .vstr "error", value := .vstr "low",
      details := .vstr "disk failing", source := .vstr "manual",
      checkedAt := .vnum 5 } (by decide)
  exact ⟨by decide, h1.1, h1.2, h2⟩

/-- Counterexample/witness data for C10: a polled disk entry with no `source`
field. -/
def C10diskPoll : TestCheck :=
  { status := .vstr "error", value := .vstr "full", details := .vstr "disk full",
    source := .vundefined, checkedAt := .vnum 9 }

/-- The local disk entry for the C10 witness. -/
def C10diskLocal : TestCheck :=
  { status := .vstr "warning", value := .vstr "88", details := .vstr "aging",
    source := .vundefined, checkedAt := .vundefined }

/-- The local robot of the C10 witness (no local activity). -/
def C10robot : RobotRec :=
  { id := "r4", tests := [("disk", C10diskLocal)], activity := some idleActivity }

/-- The polled robot of the C10 witness. -/
def C10raw : RawRuntimeRobot :=
  { id := .vstr "r4", tests := [("disk", some C10diskPoll)], activity := none }

/-- C10: a backend-polled per-check result is merged into a robot tests map
only if its source is one of RUNTIME_ALLOWED_SOURCES; a polled result with
any other or missing source is discarded and the corresponding local check
stays unchanged, even for robots with no local activity; a polled result with
an allowed source normalizes to a concrete update, and accepted updates
replace the corresponding local entry. -/
theorem C10_runtime_source_filter (sets : ActivitySets) (r : RobotRec)
    (raw : RawRuntimeRobot) (k : String)
    (hact : hasLocalPriorityActivity sets r.id = false) :
    (∀ c : TestCheck,
      RUNTIME_ALLOWED_SOURCES.contains (normalizeText c.source "") = false →
        normalizeRuntimeTestUpdate k (some c) = none) ∧
    ((∀ rc, (k, rc) ∈ raw.tests → normalizeRuntimeTestUpdate k rc = none) →
      objGet (mergeOneRuntimeRobot sets r (some raw)).1.tests k = objGet r.tests k) ∧
    (∀ c : TestCheck,
      RUNTIME_ALLOWED_SOURCES.contains (normalizeText c.source "") = true →
        normalizeRuntimeTestUpdate k (some c) =
          some { status := .vstr (normalizeStatus c.status)
                 value := .vstr (normalizeText c.value "n/a")
                 details := .vstr (normalizeText c.details "No detail available")
                 source := .vstr (normalizeText c.source "")
                 checkedAt :=
                   match jsToNumber c.checkedAt with
                   | some n => .vnum n
                   | none => .vnum 0 }) ∧
    (∀ u, objGet (buildRuntimeUpdates raw.tests) k = some u →
      objGet (mergeOneRuntimeRobot sets r (some raw)).1.tests k = some u) := by
  have hmerge : (mergeOneRuntimeRobot sets r (some raw)).1 =
      ⟨r.id, spreadMerge r.tests (buildRuntimeUpdates raw.tests),
        some (normalizeRobotActivity (some (normalizeRobotActivity raw.activity)))⟩ := by
    simp only [mergeOneRuntimeRobot, hact]
    simp
  refine ⟨?_, ?_, ?_, ?_⟩
  · intro c h
    have h' : normalizeText c.source "" ∉ RUNTIME_ALLOWED_SOURCES := by
      simpa using h
    simp [normalizeRuntimeTestUpdate, h']
  · intro h
    rw [hmerge]
    show objGet (spreadMerge r.tests (buildRuntimeUpdates raw.tests)) k = objGet r.tests k
    rw [objGet_spreadMerge]
    have hupd : objGet (buildRuntimeUpdates raw.tests) k = none := by
      apply objGet_buildRuntimeUpdates_none
      intro p hp hk
      have hkp : (k, p.2) ∈ raw.tests := by
        rw [← hk]
        simpa using hp
      rw [hk]
      exact h p.2 hkp
    rw [hupd]
    cases objGet r.tests k <;> simp
  · intro c h
    have h' : normalizeText c.source "" ∈ RUNTIME_ALLOWED_SOURCES := by
      simpa using h
    simp [normalizeRuntimeTestUpdate, h']
  · intro u hu
    rw [hmerge]
    show objGet (spreadMerge r.tests (buildRuntimeUpdates raw.tests)) k = some u
    rw [objGet_spreadMerge]
    cases objGet r.tests k <;> simp [hu]

/-- Witness for C10 at concrete inputs: the source-less polled disk entry is
discarded and the local disk entry survives the merge although robot r4 has
no local activity; the same payload with source "manual" is accepted and
normalized. -/
theorem C10_runtime_source_filter_witness :
    normalizeRuntimeTestUpdate "disk" (some C10diskPoll) = none ∧
    objGet (mergeOneRuntimeRobot emptyActivitySets C10robot (some C10raw)).1.tests
      "disk" = some C10diskLocal ∧
    normalizeRuntimeTestUpdate "disk"
      (some { C10diskPoll with source := .vstr "manual" }) =
      some { status := .vstr "error", value := .vstr "full",
             details := .vstr "disk full", source := .vstr "manual",
             checkedAt := .vnum 9 } := by
  have h := C10_runtime_source_filter emptyActivitySets C10robot C10raw "disk"
    (by decide)
  refine ⟨h.1 C10diskPoll (by decide), ?_, ?_⟩
  · have h2 := h.2.1 (fun rc hrc => by
      have : rc = some C10diskPoll := by
        have := List.mem_singleton.mp hrc
        exact congrArg Prod.snd this
      rw [this]
      decide)
    rw [h2]
    decide
  · have h3 := h.2.2.1 { C10diskPoll with source := .vstr "manual" } (by decide)
    rw [h3]
    decide

/-! ## Runtime polling cycle (lines 3929-3946) -/

/-- The dashboard state fields `refreshRuntimeStateFromBackend` touches: the
robot list, the in-flight guard, and the three local activity sets the merge
consults.  The auto-monitor bookkeeping and DOM patching the source performs
after a successful merge are rendering concerns outside the claims. -/
structure DashState where
  robots : List RobotRec
  isRuntimeSyncInFlight : Bool
  sets : ActivitySets
deriving DecidableEq, Repr

/-- Source `refreshRuntimeStateFromBackend` (lines 3929-3946) for one polling
cycle.  `fetch` is the oracle outcome of `loadRobotRuntimeState` (a thrown
error or the polled list).  The returned Bool reports whether a fetch was
performed at all.  The in-flight flag is set on entry and reset in the
`finally`, so its final value equals its initial value in every branch. -/
def refreshRuntimeStateFromBackend (st : DashState)
    (fetch : Except Unit (List RawRuntimeRobot)) : DashState × Bool :=
  if st.isRuntimeSyncInFlight then (st, false)
  else
    match fetch with
    | .error _ => (st, true)
    | .ok live =>
      ({ st with robots := (mergeRuntimeRobotsIntoState st.sets st.robots live).1 },
        true)

/-- C6: a polling cycle that starts while another fetch is in flight returns
immediately without fetching and without touching state (in-flight guard);
and a cycle whose backend fetch fails is silently skipped, leaving the
previous local robot state unchanged. -/
theorem C6_poll_guard_and_failure_skip (st : DashState)
    (fetch : Except Unit (List RawRuntimeRobot)) (e : Unit) :
    (st.isRuntimeSyncInFlight = true →
      refreshRuntimeStateFromBackend st fetch = (st, false)) ∧
    (st.isRuntimeSyncInFlight = false → fetch = .error e →
      refreshRuntimeStateFromBackend st fetch = (st, true)) := by
  constructor
  · intro h
    simp [refreshRuntimeStateFromBackend, h]
  · intro h hf
    simp [refreshRuntimeStateFromBackend, h, hf]

/-- Witness for C6: with a concrete one-robot state, an in-flight cycle is a
no-op without a fetch, and a failed fetch keeps the robot list unchanged. -/
theorem C6_poll_guard_and_failure_skip_witness :
    refreshRuntimeStateFromBackend ⟨[C10robot], true, emptyActivitySets⟩
      (Except.ok []) = (⟨[C10robot], true, emptyActivitySets⟩, false) ∧
    refreshRuntimeStateFromBackend ⟨[C10robot], false, emptyActivitySets⟩
      (Except.error ()) = (⟨[C10robot], false, emptyActivitySets⟩, true) := by
  constructor
  · exact (C6_poll_guard_and_failure_skip ⟨[C10robot], true, emptyActivitySets⟩
      (Except.ok []) ()).1 rfl
  · exact (C6_poll_guard_and_failure_skip ⟨[C10robot], false, emptyActivitySets⟩
      (Except.error ()) ()).2 rfl rfl

/-! ## Remote session manager (components, RobotTerminalComponent)

The per-robot session manager of `RobotTerminalComponent` is embedded as a
state structure plus functions for `_ensureRemoteSession` (lines 1273-1320),
the settling of its connect task, `_reconnectSession` (lines 1333-1354) and
`dispose` (lines 1379-1406).  Promises and AbortControllers are identified by
numbers; DOM/xterm handles are reduced to presence flags.  JavaScript runs
these methods on a single thread: a method body executes atomically up to an
`await`, and a pending fetch settles its continuation as a microtask at the
next `await` of the caller. -/

/-- The connection state strings `_setConnectionStatus` accepts. -/
inductive ConnState where
  | disconnected
  | connecting
  | connected
  | error
deriving DecidableEq, Repr

/-- The `RobotTerminalComponent` fields the session claims read. -/
structure TermState where
  mode : String
  connectionState : ConnState
  connectionMessage : String
  sessionInFlight : Bool
  sessionStatePromise : Option Nat
  sessionConnectController : Option Nat
  streamSocket : Option Nat
  streamOpenPromise : Option Nat
  disposing : Bool
  currentRobot : Option String
  terminal : Option Unit
  fitAddon : Option Unit
deriving DecidableEq, Repr

/-- Result of a call to `_ensureRemoteSession`: an immediate boolean, the
already-pending promise shared with the in-flight call, or a fresh pending
promise after a new establishment request was issued. -/
inductive EnsureOutcome where
  | immediateFalse
  | immediateTrue
  | sharedPending (p : Nat)
  | startedPending (p : Nat)
deriving DecidableEq, Repr

/-- Source `_ensureRemoteSession` (lines 1273-1320) up to its first await:
no robot yields false; `connected` yields true; an in-flight establishment
with a stored promise is returned as-is (single-flight); no endpoint yields
false; otherwise the state is marked in flight, status becomes `connecting`,
an abortable POST `/session` request is issued, and the fresh task promise is
stored.  `freshPromise`/`freshController` name the newly created promise and
AbortController. -/
def ensureRemoteSession (st : TermState) (hasRobot hasEndpoint : Bool)
    (freshPromise freshController : Nat) : TermState × EnsureOutcome :=
  if !hasRobot then (st, .immediateFalse)
  else if st.connectionState = .connected then (st, .immediateTrue)
  else if st.sessionInFlight ∧ st.sessionStatePromise.isSome then
    (st, .sharedPending (st.sessionStatePromise.getD 0))
  else if !hasEndpoint then (st, .immediateFalse)
  else
    ({ st with
        sessionInFlight := true
        connectionState := .connecting
        connectionMessage := "Opening SSH session..."
        sessionConnectController := some freshController
        sessionStatePromise := some freshPromise },
      .startedPending freshPromise)

/-- How the `/session` fetch of the connect task ends. -/
inductive SessionFetchResult where
  | ok
  | httpError
  | abortError
  | netError
deriving DecidableEq, Repr

/-- The continuation of the connect task after its fetch settles (lines
1297-1315): status per outcome, then the `finally` clears the controller, the
in-flight flag and the stored promise.  The returned Bool is the value the
task promise resolves to. -/
def settleConnectTask (st : TermState) (res : SessionFetchResult) :
    TermState × Bool :=
  let st1 :=
    match res with
    | .ok =>
      { st with connectionState := .connecting,
                connectionMessage := "SSH session ready; opening stream..." }
    | .httpError =>
      { st with connectionState := .error,
                connectionMessage := "Session failed" }
    | .abortError =>
      { st with connectionState := .disconnected,
                connectionMessage := "Session connection canceled" }
    | .netError =>
      { st with connectionState := .error,
                connectionMessage := "SSH session init failed" }
  ({ st1 with
      sessionConnectController := none
      sessionInFlight := false
      sessionStatePromise := none },
    res = .ok)

/-- Observable session events, in program order. -/
inductive SessionEvent where
  | promiseSettled (p : Nat) (result : Bool)
  | sessionDeleteRequest
  | establishRequestIssued (p : Nat)
deriving DecidableEq, Repr

/-- Source `_reconnectSession` (lines 1333-1354) through the issuing of the
new establishment request: no current robot is a no-op; otherwise any
in-flight establishment is aborted, the stream is force-closed with status
suppressed, status becomes `disconnected`, the DELETE `/session` cleanup
request is issued, the aborted task settles its promise to false as a
microtask while that DELETE is awaited, and `_connectLiveSession` then calls
`_ensureRemoteSession`, which issues the new establishment request.  The
remainder of the reconnect (awaiting the new establishment and reopening the
stream) depends on later network results and is not needed by the claims. -/
def reconnectSession (st : TermState) (hasEndpoint : Bool)
    (freshPromise freshController : Nat) : TermState × List SessionEvent :=
  match st.currentRobot with
  | none => (st, [])
  | some _ =>
    let st1 := { st with
      streamSocket := none
      streamOpenPromise := none
      connectionState := .disconnected
      connectionMessage := "Closing session..." }
    let withDelete : List SessionEvent := [.sessionDeleteRequest]
    let (st2, evs2) :=
      if st.sessionConnectController.isSome then
        match st1.sessionStatePromise with
        | some p =>
          ((settleConnectTask st1 .abortError).1,
            [SessionEvent.promiseSettled p false])
        | none => ((settleConnectTask st1 .abortError).1, [])
      else (st1, [])
    let (st3, outcome) :=
      if st2.mode = "live" then
        ensureRemoteSession st2 true hasEndpoint freshPromise freshController
      else (st2, .immediateFalse)
    let evs3 : List SessionEvent :=
      match outcome with
      | .startedPending p => [.establishRequestIssued p]
      | _ => []
    (st3, withDelete ++ evs2 ++ evs3)

/-- Source `dispose` (lines 1379-1406): aborts any in-flight establishment,
clears the controller, in-flight flag and stored promise, force-closes the
stream with status suppressed, resets the connection state and message,
drops the terminal handles, and issues a fire-and-forget DELETE cleanup
request whose failure is ignored.  The method throws nothing on any input
state. -/
def dispose (st : TermState) : TermState :=
  { st with
      disposing := true
      mode := "fallback"
      sessionConnectController := none
      sessionInFlight := false
      sessionStatePromise := none
      streamSocket := none
      streamOpenPromise := none
      connectionState := .disconnected
      connectionMessage := "Session closed"
      terminal := none
      fitAddon := none }

/-- C8: dispose is idempotent — a second call produces the same state (and,
being total, no error), and after disposal the connection state is
`disconnected` with no open stream and no in-flight establishment. -/
theorem C8_dispose_idempotent (st : TermState) :
    dispose (dispose st) = dispose st ∧
    (dispose st).connectionState = .disconnected ∧
    (dispose st).streamSocket = none ∧
    (dispose st).streamOpenPromise = none ∧
    (dispose st).sessionInFlight = false ∧
    (dispose st).sessionStatePromise = none := by
  refine ⟨rfl, rfl, rfl, rfl, rfl, rfl⟩

/-- C7: session establishment is single-flight — while an establishment is in
flight every call returns the same pending promise with the state untouched
(no duplicate request) — and a reconnect issued while `connecting` settles
the in-flight establishment promise to false before the new establishment
request is issued. -/
theorem C7_single_flight_reconnect_abort (st : TermState)
    (p freshPromise freshController : Nat) (hasEndpoint : Bool) (rb : String) :
    (¬ st.connectionState = ConnState.connected →
      st.sessionInFlight = true → st.sessionStatePromise = some p →
      ensureRemoteSession st true hasEndpoint freshPromise freshController =
        (st, .sharedPending p)) ∧
    (st.currentRobot = some rb → st.connectionState = ConnState.connecting →
      st.mode = "live" → st.sessionConnectController.isSome = true →
      st.sessionStatePromise = some p →
      (reconnectSession st true freshPromise freshController).2 =
        [.sessionDeleteRequest, .promiseSettled p false,
          .establishRequestIssued freshPromise]) := by
  constructor
  · intro hconn hin hp
    simp [ensureRemoteSession, hconn, hin, hp]
  · intro hrobot hconn hmode hctrl hp
    simp only [reconnectSession, hrobot, hctrl, hp, hmode, if_true]
    simp [settleConnectTask, ensureRemoteSession, hmode]

/-- Witness for C7 at a concrete connecting-state component: the second
caller shares promise 7, and a reconnect settles promise 7 to false before
establishment request 9 goes out. -/
theorem C7_single_flight_reconnect_abort_witness :
    ensureRemoteSession
      ⟨"live", .connecting, "Opening SSH session...", true, some 7, some 3,
        none, none, false, some "r1", none, none⟩ true true 9 4 =
      (⟨"live", .connecting, "Opening SSH session...", true, some 7, some 3,
        none, none, false, some "r1", none, none⟩, .sharedPending 7) ∧
    (reconnectSession
      ⟨"live", .connecting, "Opening SSH session...", true, some 7, some 3,
        none, none, false, some "r1", none, none⟩ true 9 4).2 =
      [.sessionDeleteRequest, .promiseSettled 7 false,
        .establishRequestIssued 9] := by
  constructor
  · exact (C7_single_flight_reconnect_abort
      ⟨"live", .connecting, "Opening SSH session...", true, some 7, some 3,
        none, none, false, some "r1", none, none⟩ 7 9 4 true "r1").1
      (by decide) rfl rfl
  · exact (C7_single_flight_reconnect_abort
      ⟨"live", .connecting, "Opening SSH session...", true, some 7, some 3,
        none, none, false, some "r1", none, none⟩ 7 9 4 true "r1").2
      rfl rfl rfl rfl rfl

/-! ## Bounded-parallelism manual test scheduler (runManualTests, 2932-3114)

`runManualTests` drains a shared queue of robot ids with
`workerCount = Math.max(1, Math.min(getFleetParallelism(), runIds.length))`
cooperative workers.  Each worker loops: shift the next id (a falsy id breaks
the loop), then run `processOneRobot`, which can (a) fail immediately when
the robot is not in state, (b) run an online check first and fail without
tests when the robot is offline (clearing the robot testing flag), or (c)
mark the robot testing, await the test run, count success or failure, and
clear the testing flag in a `finally`.  JavaScript executes each region
between awaits atomically; the model makes every region its own atomic
transition and lets an adversary pick interleavings and per-robot outcomes,
which over-approximates the real schedules.  The per-robot operation of the
claims is `processOneRobot`; an invocation is recorded when a worker
dequeues an id and enters it. -/

/-- Source constant `FLEET_PARALLELISM_MIN` (line 40). -/
def FLEET_PARALLELISM_MIN : Int := 1

/-- Source constant `FLEET_PARALLELISM_MAX` (line 41). -/
def FLEET_PARALLELISM_MAX : Int := 100

/-- Source constant `FLEET_PARALLELISM_DEFAULT` (line 42). -/
def FLEET_PARALLELISM_DEFAULT : Int := 8

/-- Source `clampFleetParallelism` (lines 129-132): a non-finite number
falls back to the default, then the value is clamped into
[FLEET_PARALLELISM_MIN, FLEET_PARALLELISM_MAX].  (`Math.round` is the
identity on the integer numbers of the model.) -/
def clampFleetParallelism (value : JsVal) : Int :=
  let numeric :=
    match jsToNumber value with
    | some n => n
    | none => FLEET_PARALLELISM_DEFAULT
  max FLEET_PARALLELISM_MIN (min numeric FLEET_PARALLELISM_MAX)

/-- Source line 2958: `Math.max(1, Math.min(getFleetParallelism(), runIds.length))`. -/
def manualTestWorkerCount (parallelism : JsVal) (runIds : List String) : Nat :=
  (max 1 (min (clampFleetParallelism parallelism) (runIds.length : Int))).toNat

/-- The outcome shape of one `processOneRobot` invocation, chosen by the
adversary (it depends on backend responses): robot missing from state,
online check failed (tests skipped), or the test run proper which either
succeeds or fails (a thrown request or an empty result list). -/
inductive OpBranch where
  | notFound
  | offlineFail
  | proceed (fails : Bool)
deriving DecidableEq, Repr

/-- A worker of the pool: at the top of its while loop, inside
`processOneRobot` before `setRobotTesting(id, true)` (for example awaiting
the preliminary online check), running the marked test phase, or finished. -/
inductive WStatus where
  | idle
  | pre (rid : String) (b : OpBranch)
  | marked (rid : String) (fails : Bool)
  | done
deriving DecidableEq, Repr

/-- The scheduler state: the shared queue, the workers, the ids
`processOneRobot` was invoked on (in order), the local
`state.testingRobotIds` set, and the success/failure counters. -/
structure SchedState where
  queue : List String
  workers : List WStatus
  invoked : List String
  testingIds : List String
  successCount : Nat
  failureCount : Nat
deriving DecidableEq, Repr

/-- JS `Set.add` on a duplicate-free list. -/
def setAdd (l : List String) (x : String) : List String :=
  if x ∈ l then l else l ++ [x]

/-- JS `Set.delete` on a duplicate-free list. -/
def setDel (l : List String) (x : String) : List String :=
  l.filter (fun y => ¬ y = x)

/-- The robot id a worker is currently processing, if any. -/
def ridOf : WStatus → Option String
  | .pre rid _ => some rid
  | .marked rid _ => some rid
  | _ => none

/-- Number of workers currently processing id. -/
def occupied (ws : List WStatus) (id : String) : Nat :=
  ws.countP (fun w => ridOf w == some id)

/-- Number of workers currently in the marked test phase for id. -/
def markedCount (ws : List WStatus) (id : String) : Nat :=
  ws.countP (fun w =>
    match w with
    | .marked rid _ => rid == id
    | _ => false)

/-- Number of workers with an in-flight `processOneRobot` invocation. -/
def busyCount (ws : List WStatus) : Nat :=
  ws.countP (fun w => (ridOf w).isSome)

/-- The scheduler state right after the workers are created (source lines
2966 and 3080-3086): the queue is a copy of runIds, every worker is at the
top of its loop, nothing is invoked and no robot is marked testing — there
is no bulk pre-marking loop in `runManualTests`. -/
def initSched (runIds : List String) (workerCount : Nat) : SchedState :=
  { queue := runIds
    workers := List.replicate workerCount .idle
    invoked := []
    testingIds := []
    successCount := 0
    failureCount := 0 }

/-- One atomic region of the cooperative execution of `runManualTests`.
The worker acted on is singled out as `pre ++ w :: post`. -/
inductive SchedStep : SchedState → SchedState → Prop where
  | dequeue (queue₁ : List String) (rid : String) (pre post : List WStatus)
      (inv t : List String) (sc fc : Nat) (b : OpBranch) (hrid : ¬ rid = "") :
      SchedStep
        ⟨rid :: queue₁, pre ++ .idle :: post, inv, t, sc, fc⟩
        ⟨queue₁, pre ++ .pre rid b :: post, inv ++ [rid], t, sc, fc⟩
  | dequeueFalsy (queue₁ : List String) (pre post : List WStatus)
      (inv t : List String) (sc fc : Nat) :
      SchedStep
        ⟨"" :: queue₁, pre ++ .idle :: post, inv, t, sc, fc⟩
        ⟨queue₁, pre ++ .done :: post, inv, t, sc, fc⟩
  | finishEmpty (pre post : List WStatus) (inv t : List String) (sc fc : Nat) :
      SchedStep
        ⟨[], pre ++ .idle :: post, inv, t, sc, fc⟩
        ⟨[], pre ++ .done :: post, inv, t, sc, fc⟩
  | preNotFound (q : List String) (rid : String) (pre post : List WStatus)
      (inv t : List String) (sc fc : Nat) :
      SchedStep
        ⟨q, pre ++ .pre rid .notFound :: post, inv, t, sc, fc⟩
        ⟨q, pre ++ .idle :: post, inv, t, sc, fc + 1⟩
  | preOfflineFail (q : List String) (rid : String) (pre post : List WStatus)
      (inv t : List String) (sc fc : Nat) :
      SchedStep
        ⟨q, pre ++ .pre rid .offlineFail :: post, inv, t, sc, fc⟩
        ⟨q, pre ++ .idle :: post, inv, setDel t rid, sc, fc + 1⟩
  | preProceed (q : List String) (rid : String) (f : Bool)
      (pre post : List WStatus) (inv t : List String) (sc fc : Nat) :
      SchedStep
        ⟨q, pre ++ .pre rid (.proceed f) :: post, inv, t, sc, fc⟩
        ⟨q, pre ++ .marked rid f :: post, inv, setAdd t rid, sc, fc⟩
  | finishOk (q : List String) (rid : String) (pre post : List WStatus)
      (inv t : List String) (sc fc : Nat) :
      SchedStep
        ⟨q, pre ++ .marked rid false :: post, inv, t, sc, fc⟩
        ⟨q, pre ++ .idle :: post, inv, setDel t rid, sc + 1, fc⟩
  | finishThrow (q : List String) (rid : String) (pre post : List WStatus)
      (inv t : List String) (sc fc : Nat) :
      SchedStep
        ⟨q, pre ++ .marked rid true :: post, inv, t, sc, fc⟩
        ⟨q, pre ++ .idle :: post, inv, setDel t rid, sc, fc + 1⟩

/-- States reachable by the scheduler started on `runIds` with
`workerCount` workers. -/
inductive SchedReach (runIds : List String) (workerCount : Nat) :
    SchedState → Prop where
  | init : SchedReach runIds workerCount (initSched runIds workerCount)
  | step {s t : SchedState} : SchedReach runIds workerCount s →
      SchedStep s t → SchedReach runIds workerCount t

/-- How a call to `runManualTests` begins (lines 2932-2958). -/
inductive ManualRunOutcome where
  | rejectedInProgress
  | rejectedNoRobots
  | started (workerCount : Nat)
deriving DecidableEq, Repr

/-- The entry guards of `runManualTests`: an in-progress test or auto-fix run
rejects the call, an empty id list warns and returns without invoking
anything, otherwise the worker pool starts. -/
def startManualTests (isTestRunInProgress isAutoFixInProgress : Bool)
    (parallelism : JsVal) (runIds : List String) : ManualRunOutcome :=
  if isTestRunInProgress then .rejectedInProgress
  else if isAutoFixInProgress then .rejectedInProgress
  else if runIds.isEmpty then .rejectedNoRobots
  else .started (manualTestWorkerCount parallelism runIds)

/-- The inductive invariant of the scheduler: fixed worker count, ids are
conserved between `invoked` and the queue, a worker processes an id only
after its invocation was recorded, the testing set holds exactly the ids in
the marked phase, and while the queue is non-empty some worker is alive. -/
def SchedInv (runIds : List String) (workerCount : Nat) (s : SchedState) : Prop :=
  s.workers.length = workerCount ∧
  (∀ id, s.invoked.count id + s.queue.count id = runIds.count id) ∧
  (∀ id, occupied s.workers id ≤ s.invoked.count id) ∧
  (∀ id, id ∈ s.testingIds ↔ 1 ≤ markedCount s.workers id) ∧
  (¬ s.queue = [] → ∃ w ∈ s.workers, ¬ w = .done)

theorem mem_setAdd (l : List String) (x a : String) :
    a ∈ setAdd l x ↔ a ∈ l ∨ a = x := by
  unfold setAdd
  by_cases h : x ∈ l
  · rw [if_pos h]
    exact ⟨Or.inl, fun hh => hh.elim id (fun he => he ▸ h)⟩
  · rw [if_neg h]
    simp

theorem mem_setDel (l : List String) (x a : String) :
    a ∈ setDel l x ↔ a ∈ l ∧ ¬ a = x := by
  unfold setDel
  simp [List.mem_filter]

theorem markedCount_le_occupied (ws : List WStatus) (id : String) :
    markedCount ws id ≤ occupied ws id := by
  unfold markedCount occupied
  apply List.countP_mono_left
  intro w _ hw
  cases w <;> simp_all [ridOf]

theorem schedInv_init (runIds : List String) (wc : Nat) (hwc : 1 ≤ wc) :
    SchedInv runIds wc (initSched runIds wc) := by
  refine ⟨by simp [initSched], by intro id; simp [initSched], ?_, ?_, ?_⟩
  · intro id
    have : occupied (List.replicate wc WStatus.idle) id = 0 := by
      rw [occupied, List.countP_eq_zero]
      intro w hw
      rw [List.eq_of_mem_replicate hw]
      simp [ridOf]
    simp [initSched, this]
  · intro id
    have : markedCount (List.replicate wc WStatus.idle) id = 0 := by
      rw [markedCount, List.countP_eq_zero]
      intro w hw
      rw [List.eq_of_mem_replicate hw]
      simp
    simp [initSched, this]
  · intro _
    refine ⟨.idle, ?_, by decide⟩
    show WStatus.idle ∈ List.replicate wc WStatus.idle
    exact List.mem_replicate.mpr ⟨by omega, rfl⟩


theorem occupied_parts (pre post : List WStatus) (w : WStatus) (id : String) :
    occupied (pre ++ w :: post) id =
      occupied pre id + ((if ridOf w == some id then 1 else 0) + occupied post id) := by
  unfold occupied
  rw [List.countP_append, List.countP_cons]
  omega

theorem markedCount_parts (pre post : List WStatus) (w : WStatus) (id : String) :
    markedCount (pre ++ w :: post) id =
      markedCount pre id +
        ((if (match w with | .marked rid _ => rid == id | _ => false) then 1 else 0) +
          markedCount post id) := by
  unfold markedCount
  rw [List.countP_append, List.countP_cons]
  omega

theorem schedInv_step {runIds : List String} {wc : Nat} {s t : SchedState}
    (hids : ¬ "" ∈ runIds) (hnodup : runIds.Nodup)
    (hinv : SchedInv runIds wc s) (hstep : SchedStep s t) :
    SchedInv runIds wc t := by
  obtain ⟨hlen, hcnt, hocc, htst, hlive⟩ := hinv
  have hcle : ∀ id, List.count id runIds ≤ 1 :=
    List.nodup_iff_count_le_one.mp hnodup
  cases hstep with
  | dequeue queue₁ rid pre post inv tst sc fcn b hrid =>
    refine ⟨by simpa using hlen, ?_, ?_, ?_, ?_⟩
    · intro id
      have h := hcnt id
      simp [List.count_append, List.count_cons] at h ⊢
      omega
    · intro id
      have h := hocc id
      rw [occupied_parts] at h ⊢
      have h2 := hcnt id
      simp [ridOf, List.count_append, List.count_cons] at h h2 ⊢
      by_cases hr : rid = id <;> simp [hr] at h ⊢ <;> omega
    · intro id
      have h := htst id
      rw [markedCount_parts] at h ⊢
      simp at h ⊢
      exact h
    · intro _
      exact ⟨.pre rid b, by simp, by simp⟩
  | dequeueFalsy queue₁ pre post inv tst sc fcn =>
    exfalso
    have h0 : List.count "" runIds = 0 := List.count_eq_zero.mpr hids
    have h := hcnt ""
    simp [List.count_cons_self] at h
    omega
  | finishEmpty pre post inv tst sc fcn =>
    refine ⟨by simpa using hlen, by simpa using hcnt, ?_, ?_, ?_⟩
    · intro id
      have h := hocc id
      rw [occupied_parts] at h ⊢
      simp [ridOf] at h ⊢
      omega
    · intro id
      have h := htst id
      rw [markedCount_parts] at h ⊢
      simp at h ⊢
      exact h
    · intro h
      exact absurd rfl h
  | preNotFound q rid pre post inv tst sc fcn =>
    refine ⟨by simpa using hlen, by simpa using hcnt, ?_, ?_, ?_⟩
    · intro id
      have h := hocc id
      rw [occupied_parts] at h ⊢
      simp [ridOf] at h ⊢
      by_cases hr : rid = id <;> simp [hr] at h ⊢ <;> omega
    · intro id
      have h := htst id
      rw [markedCount_parts] at h ⊢
      simp at h ⊢
      exact h
    · intro _
      exact ⟨.idle, by simp, by simp⟩
  | preOfflineFail q rid pre post inv tst sc fcn =>
    refine ⟨by simpa using hlen, by simpa using hcnt, ?_, ?_, ?_⟩
    · intro id
      have h := hocc id
      rw [occupied_parts] at h ⊢
      simp [ridOf] at h ⊢
      by_cases hr : rid = id <;> simp [hr] at h ⊢ <;> omega
    · intro id
      have h := htst id
      rw [markedCount_parts] at h ⊢
      rw [mem_setDel]
      by_cases hr : id = rid
      · subst hr
        have hoc := hocc id
        rw [occupied_parts] at hoc
        have hc := hcnt id
        have hp := markedCount_le_occupied pre id
        have hs := markedCount_le_occupied post id
        have hru := hcle id
        simp [ridOf] at hoc hc ⊢
        omega
      · have hr' : ¬ rid = id := fun e => hr e.symm
        simp [hr, hr'] at h ⊢
        exact h
    · intro _
      exact ⟨.idle, by simp, by simp⟩
  | preProceed q rid f pre post inv tst sc fcn =>
    refine ⟨by simpa using hlen, by simpa using hcnt, ?_, ?_, ?_⟩
    · intro id
      have h := hocc id
      rw [occupied_parts] at h ⊢
      simp [ridOf] at h ⊢
      omega
    · intro id
      have h := htst id
      rw [markedCount_parts] at h ⊢
      rw [mem_setAdd]
      by_cases hr : id = rid
      · subst hr
        simp
        omega
      · have hr' : ¬ rid = id := fun e => hr e.symm
        simp [hr, hr'] at h ⊢
        exact h
    · intro _
      exact ⟨.marked rid f, by simp, by simp⟩
  | finishOk q rid pre post inv tst sc fcn =>
    refine ⟨by simpa using hlen, by simpa using hcnt, ?_, ?_, ?_⟩
    · intro id
      have h := hocc id
      rw [occupied_parts] at h ⊢
      simp [ridOf] at h ⊢
      by_cases hr : rid = id <;> simp [hr] at h ⊢ <;> omega
    · intro id
      have h := htst id
      rw [markedCount_parts] at h ⊢
      rw [mem_setDel]
      by_cases hr : id = rid
      · subst hr
        have hoc := hocc id
        rw [occupied_parts] at hoc
        have hc := hcnt id
        have hp := markedCount_le_occupied pre id
        have hs := markedCount_le_occupied post id
        have hru := hcle id
        simp [ridOf] at hoc hc ⊢
        omega
      · have hr' : ¬ rid = id := fun e => hr e.symm
        simp [hr, hr'] at h ⊢
        exact h
    · intro _
      exact ⟨.idle, by simp, by simp⟩
  | finishThrow q rid pre post inv tst sc fcn =>
    refine ⟨by simpa using hlen, by simpa using hcnt, ?_, ?_, ?_⟩
    · intro id
      have h := hocc id
      rw [occupied_parts] at h ⊢
      simp [ridOf] at h ⊢
      by_cases hr : rid = id <;> simp [hr] at h ⊢ <;> omega
    · intro id
      have h := htst id
      rw [markedCount_parts] at h ⊢
      rw [mem_setDel]
      by_cases hr : id = rid
      · subst hr
        have hoc := hocc id
        rw [occupied_parts] at hoc
        have hc := hcnt id
        have hp := markedCount_le_occupied pre id
        have hs := markedCount_le_occupied post id
        have hru := hcle id
        simp [ridOf] at hoc hc ⊢
        omega
      · have hr' : ¬ rid = id := fun e => hr e.symm
        simp [hr, hr'] at h ⊢
        exact h
    · intro _
      exact ⟨.idle, by simp, by simp⟩

theorem schedInv_reach {runIds : List String} {wc : Nat} {s : SchedState}
    (hids : ¬ "" ∈ runIds) (hnodup : runIds.Nodup) (hwc : 1 ≤ wc)
    (h : SchedReach runIds wc s) : SchedInv runIds wc s := by
  induction h with
  | init => exact schedInv_init runIds wc hwc
  | step _ hs ih => exact schedInv_step hids hnodup ih hs

theorem sched_terminal {runIds : List String} {wc : Nat} {s : SchedState}
    (hids : ¬ "" ∈ runIds) (hnodup : runIds.Nodup) (hwc : 1 ≤ wc)
    (h : SchedReach runIds wc s)
    (hdone : ∀ w ∈ s.workers, w = WStatus.done) :
    s.queue = [] ∧ ∀ id, s.invoked.count id = runIds.count id := by
  obtain ⟨hlen, hcnt, hocc, htst, hlive⟩ := schedInv_reach hids hnodup hwc h
  have hq : s.queue = [] := by
    by_contra hq
    obtain ⟨w, hw, hnd⟩ := hlive hq
    exact hnd (hdone w hw)
  refine ⟨hq, fun id => ?_⟩
  have hc := hcnt id
  rw [hq] at hc
  simpa using hc

/-- C1: the scheduler runs `min(P, |IDs|)` workers where P is the fleet
parallelism clamped to [1, 100] with default 8; in every reachable execution
state the number of in-flight per-robot operations is bounded by the worker
count; and when all workers have finished, `processOneRobot` was invoked
exactly once per queued id. -/
theorem C1_scheduler_parallelism (parallelism : JsVal) (runIds : List String)
    (hne : ¬ runIds = []) (hids : ¬ "" ∈ runIds) (hnodup : runIds.Nodup) :
    (manualTestWorkerCount parallelism runIds : Int) =
      min (clampFleetParallelism parallelism) (runIds.length : Int) ∧
    FLEET_PARALLELISM_MIN ≤ clampFleetParallelism parallelism ∧
    clampFleetParallelism parallelism ≤ FLEET_PARALLELISM_MAX ∧
    clampFleetParallelism .vundefined = FLEET_PARALLELISM_DEFAULT ∧
    (∀ s : SchedState,
      SchedReach runIds (manualTestWorkerCount parallelism runIds) s →
      busyCount s.workers ≤ manualTestWorkerCount parallelism runIds) ∧
    (∀ s : SchedState,
      SchedReach runIds (manualTestWorkerCount parallelism runIds) s →
      (∀ w ∈ s.workers, w = WStatus.done) →
      ∀ id ∈ runIds, s.invoked.count id = 1) := by
  have hP1 : 1 ≤ clampFleetParallelism parallelism := by
    unfold clampFleetParallelism FLEET_PARALLELISM_MIN FLEET_PARALLELISM_MAX
      FLEET_PARALLELISM_DEFAULT
    cases jsToNumber parallelism <;> simp
  have hP100 : clampFleetParallelism parallelism ≤ 100 := by
    unfold clampFleetParallelism FLEET_PARALLELISM_MIN FLEET_PARALLELISM_MAX
      FLEET_PARALLELISM_DEFAULT
    cases jsToNumber parallelism <;> simp
  have hlen1 : 1 ≤ (runIds.length : Int) := by
    have : 0 < runIds.length := List.length_pos.mpr hne
    omega
  have hwc1 : 1 ≤ manualTestWorkerCount parallelism runIds := by
    unfold manualTestWorkerCount
    omega
  refine ⟨?_, hP1, hP100, by decide, ?_, ?_⟩
  · unfold manualTestWorkerCount
    omega
  · intro s hreach
    obtain ⟨hlen, _, _, _, _⟩ :=
      schedInv_reach hids hnodup hwc1 hreach
    calc busyCount s.workers ≤ s.workers.length := List.countP_le_length _
    _ = _ := hlen
  · intro s hreach hdone id hid
    have hterm := (sched_terminal hids hnodup hwc1 hreach hdone).2 id
    have h1 : 0 < runIds.count id := List.count_pos_iff.mpr hid
    have h2 : runIds.count id ≤ 1 := List.nodup_iff_count_le_one.mp hnodup id
    omega

/-- Witness for C1 at parallelism 2 over three ids: the worker count is
min(2, 3) = 2 and the in-flight bound holds at the initial state. -/
theorem C1_scheduler_parallelism_witness :
    manualTestWorkerCount (.vnum 2) ["a", "b", "c"] = 2 ∧
    busyCount (initSched ["a", "b", "c"]
        (manualTestWorkerCount (.vnum 2) ["a", "b", "c"])).workers ≤
      manualTestWorkerCount (.vnum 2) ["a", "b", "c"] := by
  have h := C1_scheduler_parallelism (.vnum 2) ["a", "b", "c"]
    (by decide) (by decide) (by decide)
  exact ⟨by decide, h.2.2.2.2.1 _ SchedReach.init⟩

/-- Counterexample to C4 as stated: at the moment the workers are created
(before any worker has executed a step) the queue holds both robots but the
local testing set is empty — `runManualTests` has no bulk pre-marking loop,
so the precedence rule does not yet apply to queued robots. -/
theorem C4_premark_counterexample :
    (initSched ["r1", "r2"] (manualTestWorkerCount (.vnum 8) ["r1", "r2"])).queue =
      ["r1", "r2"] ∧
    ¬ "r1" ∈ (initSched ["r1", "r2"]
      (manualTestWorkerCount (.vnum 8) ["r1", "r2"])).testingIds ∧
    ¬ "r2" ∈ (initSched ["r1", "r2"]
      (manualTestWorkerCount (.vnum 8) ["r1", "r2"])).testingIds := by
  decide

/-- C4 as amended: the scheduler adds a robot to the local testing set only
when a worker reaches the marked test phase of that robot's own operation —
in every reachable state the testing set is exactly the set of ids whose
worker is in the marked phase, and a robot still waiting in the queue is
never in the testing set. -/
theorem C4_testing_marked_on_dequeue_only (runIds : List String) (wc : Nat)
    (hids : ¬ "" ∈ runIds) (hnodup : runIds.Nodup) (hwc : 1 ≤ wc)
    (s : SchedState) (h : SchedReach runIds wc s) :
    (∀ id, id ∈ s.testingIds ↔ 1 ≤ markedCount s.workers id) ∧
    (∀ id, id ∈ s.queue → ¬ id ∈ s.testingIds) := by
  obtain ⟨hlen, hcnt, hocc, htst, hlive⟩ := schedInv_reach hids hnodup hwc h
  refine ⟨htst, ?_⟩
  intro id hq htest
  have h1 := (htst id).mp htest
  have h2 : 0 < s.queue.count id := List.count_pos_iff.mpr hq
  have h3 := hcnt id
  have h4 := hocc id
  have h5 := markedCount_le_occupied s.workers id
  have h6 := List.nodup_iff_count_le_one.mp hnodup id
  omega

/-- Witness for C4 as amended: in the initial two-robot scheduler state the
queued robot r1 is not in the testing set. -/
theorem C4_testing_marked_on_dequeue_only_witness :
    ¬ "r1" ∈ (initSched ["r1", "r2"] 2).testingIds :=
  (C4_testing_marked_on_dequeue_only ["r1", "r2"] 2 (by decide) (by decide)
    (by decide) (initSched ["r1", "r2"] 2) SchedReach.init).2 "r1" (by decide)

/-- C5: an empty robot-id list is rejected before any worker or invocation
is created; a per-robot operation that throws makes exactly the transition
that increments the failure counter, clears that robot's testing flag and
returns the worker to the dequeue loop (no other field changes); and
whatever failures the adversary injects, when every worker has finished the
queue is drained and every id was invoked exactly once. -/
theorem C5_failure_isolation (parallelism : JsVal) (runIds : List String)
    (hids : ¬ "" ∈ runIds) (hnodup : runIds.Nodup) :
    startManualTests false false parallelism [] = .rejectedNoRobots ∧
    (∀ (q : List String) (pre post : List WStatus) (inv tst : List String)
        (sc fcn : Nat) (rid : String),
      SchedStep ⟨q, pre ++ .marked rid true :: post, inv, tst, sc, fcn⟩
        ⟨q, pre ++ .idle :: post, inv, setDel tst rid, sc, fcn + 1⟩) ∧
    (∀ (wc : Nat) (s : SchedState), 1 ≤ wc → SchedReach runIds wc s →
      (∀ w ∈ s.workers, w = WStatus.done) →
      s.queue = [] ∧ ∀ id ∈ runIds, s.invoked.count id = 1) := by
  refine ⟨rfl, ?_, ?_⟩
  · intro q pre post inv tst sc fcn rid
    exact SchedStep.finishThrow q rid pre post inv tst sc fcn
  · intro wc s hwc hreach hdone
    obtain ⟨hq, hcount⟩ := sched_terminal hids hnodup hwc hreach hdone
    refine ⟨hq, fun id hid => ?_⟩
    have h1 : 0 < runIds.count id := List.count_pos_iff.mpr hid
    have h2 : runIds.count id ≤ 1 := List.nodup_iff_count_le_one.mp hnodup id
    have := hcount id
    omega

/-- Witness for C5: the empty list is rejected; the concrete throwing
transition exists for one worker; and the one-robot execution where the
operation throws still terminates with the robot invoked once and one
counted failure. -/
theorem C5_failure_isolation_witness :
    startManualTests false false (.vnum 8) [] = .rejectedNoRobots ∧
    SchedStep ⟨["b"], [.marked "a" true], ["a"], ["a"], 0, 0⟩
      ⟨["b"], [.idle], ["a"], setDel ["a"] "a", 0, 1⟩ ∧
    ((⟨[], [.done], ["a"], setDel (setAdd [] "a") "a", 0, 1⟩ : SchedState).queue
        = [] ∧
      ∀ id ∈ ["a"],
        (⟨[], [.done], ["a"], setDel (setAdd [] "a") "a", 0, 1⟩
          : SchedState).invoked.count id = 1) := by
  have h := C5_failure_isolation (.vnum 8) ["a"] (by decide) (by decide)
  refine ⟨h.1, h.2.1 ["b"] [] [] ["a"] ["a"] 0 0 "a", ?_⟩
  have r0 : SchedReach ["a"] 1 (initSched ["a"] 1) := SchedReach.init
  have r1 := SchedReach.step r0
    (SchedStep.dequeue [] "a" [] [] [] [] 0 0 (.proceed true) (by decide))
  have r2 := SchedReach.step r1
    (SchedStep.preProceed [] "a" true [] [] ["a"] [] 0 0)
  have r3 := SchedReach.step r2
    (SchedStep.finishThrow [] "a" [] [] ["a"] (setAdd [] "a") 0 0)
  have r4 := SchedReach.step r3
    (SchedStep.finishEmpty [] [] ["a"] (setDel (setAdd [] "a") "a") 0 1)
  refine h.2.2 1 _ (by decide) r4 ?_
  intro w hw
  rw [List.mem_singleton] at hw
  rw [hw]
